import Mathlib

/-!
A verification development for the otter-download catalog-synchronization
core.  The definitions below are a shallow embedding of the Python sources
src/otter_cli/utils.py, src/otter_cli/auth.py and src/otter_cli/downloader.py:
pure string processing is translated directly, and the stateful loops are
translated with explicit state passing, where the upstream HTTP service is
modelled by oracle functions giving the response to each request.
-/

namespace OtterDL

/-! ## utils.py : slugify -/

/-- Characters of the regex class [\s] used by utils.slugify, restricted to
the ASCII whitespace characters Python matches: space, tab, newline,
carriage return, vertical tab, form feed. -/
def isSpaceChar (c : Char) : Bool :=
  (c == ' ') || (c == '\t') || (c == '\n') || (c == '\r') || (c == '\x0b') || (c == '\x0c')

/-- Characters of the regex class \w used by utils.slugify (ASCII part):
letters, digits and the underscore. -/
def isWordChar (c : Char) : Bool :=
  (decide ('a' ≤ c) && decide (c ≤ 'z')) ||
  (decide ('A' ≤ c) && decide (c ≤ 'Z')) ||
  (decide ('0' ≤ c) && decide (c ≤ '9')) || (c == '_')

/-- Characters of the class [\s/_\|] whose runs slugify replaces by single
hyphens (line 23 of utils.py). -/
def inSepClass (c : Char) : Bool :=
  isSpaceChar c || (c == '/') || (c == '_') || (c == '|')

/-- Characters that survive the removal of [^\w\-\.] (line 26 of utils.py):
word characters, hyphen and dot. -/
def keepChar (c : Char) : Bool :=
  isWordChar c || (c == '-') || (c == '.')

/-- The hyphen test used when collapsing repeated hyphens (line 29). -/
def isHyphen (c : Char) : Bool := c == '-'

/-- One re.sub pass replacing each maximal run of characters satisfying p by
the single character r.  The flag prev records whether the previous character
belonged to the class, that is whether we are inside a run. -/
def collapseAux (p : Char → Bool) (r : Char) : Bool → List Char → List Char
  | _, [] => []
  | prev, c :: cs =>
    if p c then
      if prev then collapseAux p r true cs else r :: collapseAux p r true cs
    else c :: collapseAux p r false cs

/-- Replacement of every maximal run of the class p by the character r, as
re.sub does for the patterns on lines 23 and 29 of utils.py. -/
def collapseClass (p : Char → Bool) (r : Char) (l : List Char) : List Char :=
  collapseAux p r false l

/-- Removal of leading characters satisfying p, as in Python str.strip and
str.lstrip. -/
def lstripWhile (p : Char → Bool) : List Char → List Char
  | [] => []
  | c :: cs => if p c then lstripWhile p cs else c :: cs

/-- Removal of trailing characters satisfying p, as in Python str.rstrip. -/
def rstripWhile (p : Char → Bool) : List Char → List Char
  | [] => []
  | c :: cs =>
    if rstripWhile p cs = [] then (if p c then [] else [c])
    else c :: rstripWhile p cs

/-- Removal of both leading and trailing characters satisfying p, as in
Python str.strip with an argument. -/
def stripBoth (p : Char → Bool) (l : List Char) : List Char :=
  rstripWhile p (lstripWhile p l)

/-- The transformation passes of utils.slugify lines 19 to 32, in order:
strip whitespace, collapse separator runs to single hyphens, drop characters
outside the class [\w\-\.], collapse repeated hyphens, and strip leading and
trailing hyphens. -/
def slugCore (l : List Char) : List Char :=
  stripBoth isHyphen
    (collapseClass isHyphen '-'
      ((collapseClass inSepClass '-' (stripBoth isSpaceChar l)).filter keepChar))

/-- The truncation pass of utils.slugify lines 34 to 36: cut to max_length
characters and remove any trailing hyphens left by the cut. -/
def slugTrunc (max_length : Nat) (s : List Char) : List Char :=
  if max_length < s.length then rstripWhile isHyphen (s.take max_length) else s

/-- The slug pipeline of utils.slugify (lines 8 to 42) on an explicit
character list: the fallback for falsy input (line 16), the transformation
passes, the truncation, and the fallback for an empty result (line 39). -/
def slugChars (max_length : Nat) (l : List Char) : List Char :=
  if l = [] then "Untitled".toList
  else if slugTrunc max_length (slugCore l) = [] then "Untitled".toList
  else slugTrunc max_length (slugCore l)

/-- utils.slugify: convert text to a safe filename slug. -/
def slugify (text : String) (max_length : Nat) : String :=
  ⟨slugChars max_length text.toList⟩

/-- Characters that can appear in a finished slug: word characters other
than the underscore (which the separator pass always removes), the hyphen
and the dot. -/
def goodChar (c : Char) : Bool :=
  (isWordChar c && !(c == '_')) || (c == '-') || (c == '.')

/-- Whether a character list contains two adjacent hyphens. -/
def hasHH : List Char → Bool
  | [] => false
  | [_] => false
  | c :: d :: cs => (isHyphen c && isHyphen d) || hasHH (d :: cs)

/-- The canonical form of a finished slug: every character is a slug
character, no two hyphens are adjacent, and neither end is a hyphen.  The
slug pipeline maps every input into this form and fixes everything already
in it that also fits the length bound, which is the heart of idempotence. -/
def Canon (l : List Char) : Prop :=
  (∀ c ∈ l, goodChar c = true) ∧ hasHH l = false ∧
    l.head? ≠ some '-' ∧ l.getLast? ≠ some '-'

/-! ## The data model of downloader.py -/

/-- A catalog item as the downloader reads it: the dictionary fields consumed
by the synchronization core.  A key that is absent and a key whose Python
value is None both map to none. -/
structure Speech where
  speech_id : String
  otid : String
  title : Option String
  transcript : Option String
  summary : Option String
  deriving DecidableEq

/-- The aggregate run statistics dictionary created on lines 185 and 250 of
downloader.py. -/
structure RunStats where
  total : Nat
  downloaded : Nat
  skipped : Nat
  filtered : Nat
  errors : Nat
  deriving DecidableEq

/-- The sum of the four terminal buckets of a RunStats value. -/
def bucket_sum (s : RunStats) : Nat :=
  s.downloaded + s.skipped + s.filtered + s.errors

def addTotal (n : Nat) (s : RunStats) : RunStats :=
  ⟨s.total + n, s.downloaded, s.skipped, s.filtered, s.errors⟩

def addDownloaded (s : RunStats) : RunStats :=
  ⟨s.total, s.downloaded + 1, s.skipped, s.filtered, s.errors⟩

def addSkipped (s : RunStats) : RunStats :=
  ⟨s.total, s.downloaded, s.skipped + 1, s.filtered, s.errors⟩

def addFiltered (s : RunStats) : RunStats :=
  ⟨s.total, s.downloaded, s.skipped, s.filtered + 1, s.errors⟩

def addErrors (s : RunStats) : RunStats :=
  ⟨s.total, s.downloaded, s.skipped, s.filtered, s.errors + 1⟩

/-- The configuration surface of clean_download_all that the decision logic
reads.  The sleep_seconds pacing parameter only delays execution and has no
effect on any state, so it does not appear in the embedding. -/
structure Config where
  format : String
  overwrite : Bool
  min_transcript_length : Nat
  max_downloads : Option Nat

/-- Python truthiness of x or y for strings: the first operand when it is
non-empty, otherwise the second. -/
def pyStrOr (a b : String) : String :=
  if a = "" then b else a

/-- Python truthiness of an optional integer: None and 0 are falsy. -/
def optNatTruthy : Option Nat → Bool
  | none => false
  | some n => n != 0

/-- Line 226 and line 296 of downloader.py: the text the length filter
inspects, speech.get of transcript with default empty, or else speech.get of
summary. -/
def effective_transcript (sp : Speech) : String :=
  pyStrOr (sp.transcript.getD "") (sp.summary.getD "")

/-- downloader.get_clean_filename: Title slug, underscore, speech_id, dot,
format, with the slug truncated at 80 characters. -/
def get_clean_filename (sp : Speech) (format : String) : String :=
  slugify (pyStrOr (sp.title.getD "") "Untitled") 80 ++ "_" ++ sp.speech_id ++ "." ++ format

/-- Whether a filename matches the glob pattern star underscore speech_id dot
format used on line 84 of downloader.py: the star matches any leading run of
characters, so a filename matches exactly when it ends with the suffix built
from the id and the format. -/
def glob_matches (speech_id format fname : String) : Bool :=
  ("_" ++ speech_id ++ "." ++ format).toList.isSuffixOf fname.toList

/-- downloader.speech_already_downloaded: the destination folder, modelled by
the list of filenames it contains, holds a file matching the id pattern. -/
def speech_already_downloaded (speech_id : String) (download_folder : List String)
    (format : String) : Bool :=
  download_folder.any (fun fname => glob_matches speech_id format fname)

/-- downloader.download_speech, with the HTTP POST of the export call
modelled by the oracle respond giving the status code the upstream returns
for the item.  On status 200 the file is written into the folder and the
call returns true; on any other status nothing is written and the call
returns false (lines 129 to 146). -/
def download_speech (respond : Speech → Nat) (sp : Speech) (download_folder : List String)
    (format : String) : Bool × List String :=
  if respond sp = 200 then (true, get_clean_filename sp format :: download_folder)
  else (false, download_folder)

/-- The three-way decision the body of the processing loop takes for one
item (lines 220 to 231 and 290 to 301 of downloader.py). -/
inductive SyncDecision where
  | skipExisting
  | skipFiltered
  | download
  deriving DecidableEq

/-- The per-item decision structure of the processing loop: the existence
check with the overwrite flag first, then the length filter, then download. -/
def plan_decision (download_folder : List String) (overwrite : Bool)
    (min_transcript_length : Nat) (format : String) (sp : Speech) : SyncDecision :=
  if speech_already_downloaded sp.speech_id download_folder format && !overwrite then
    .skipExisting
  else if effective_transcript sp ≠ "" ∧ (effective_transcript sp).length < min_transcript_length then
    .skipFiltered
  else
    .download

/-- Processing of one item by the loop body: take the decision, update the
folder on a successful download, and move the statistics by exactly one of
the four terminal buckets. -/
def process_speech (cfg : Config) (respond : Speech → Nat) (download_folder : List String)
    (stats : RunStats) (sp : Speech) : List String × RunStats :=
  match plan_decision download_folder cfg.overwrite cfg.min_transcript_length cfg.format sp with
  | .skipExisting => (download_folder, addSkipped stats)
  | .skipFiltered => (download_folder, addFiltered stats)
  | .download =>
    let r := download_speech respond sp download_folder cfg.format
    if r.1 then (r.2, addDownloaded stats) else (r.2, addErrors stats)

/-- The guard on lines 210 and 280 of downloader.py: max_downloads is truthy
and the downloaded counter has reached it. -/
def cap_reached (max_downloads : Option Nat) (downloaded : Nat) : Bool :=
  match max_downloads with
  | none => false
  | some m => (m != 0) && decide (m ≤ downloaded)

/-- The inner for-loop over the items of one fetched list, shared by both
paths of clean_download_all: before each item the cap guard may stop the
loop, which the Bool component records; otherwise the item is processed and
the loop continues. -/
def process_items (cfg : Config) (respond : Speech → Nat) :
    List Speech → List String → RunStats → List String × RunStats × Bool
  | [], download_folder, stats => (download_folder, stats, false)
  | sp :: rest, download_folder, stats =>
    if cap_reached cfg.max_downloads stats.downloaded then (download_folder, stats, true)
    else
      let r := process_speech cfg respond download_folder stats sp
      process_items cfg respond rest r.1 r.2

/-- The batch path of clean_download_all (lines 245 to 317): for each batch,
total grows by the batch length before the items are processed; reaching the
cap returns from the whole function mid-batch. -/
def run_batches (cfg : Config) (respond : Speech → Nat) :
    List (List Speech) → List String → RunStats → RunStats × Bool
  | [], _, stats => (stats, false)
  | b :: rest, download_folder, stats =>
    let r := process_items cfg respond b download_folder (addTotal b.length stats)
    if r.2.2 then (r.2.1, true)
    else run_batches cfg respond rest r.1 r.2.1

/-- The direct path of clean_download_all (lines 168 to 243): total is the
length of the single fetched list, and reaching the cap breaks out of the
loop but still returns the statistics. -/
def run_direct (cfg : Config) (respond : Speech → Nat) (speeches : List Speech)
    (download_folder : List String) : RunStats × Bool :=
  let r := process_items cfg respond speeches download_folder ⟨speeches.length, 0, 0, 0, 0⟩
  (r.2.1, r.2.2)

/-- The path selection on line 168 of downloader.py: max_downloads truthy and
at most 100 selects the direct single-fetch path. -/
def direct_path (max_downloads : Option Nat) : Bool :=
  match max_downloads with
  | none => false
  | some m => (m != 0) && decide (m ≤ 100)

/-- downloader.clean_download_all with the upstream interaction explicit:
direct_speeches is the parsed list the single get_speeches call returns on
the direct path, batches is the sequence the get_speeches_batch generator
yields on the batch path, respond is the export oracle and download_folder
the initial listing of the destination directory.  The Bool component
records whether the run stopped early at the successful-download cap. -/
def clean_download_all_ex (cfg : Config) (respond : Speech → Nat)
    (direct_speeches : List Speech) (batches : List (List Speech))
    (download_folder : List String) : RunStats × Bool :=
  if direct_path cfg.max_downloads then run_direct cfg respond direct_speeches download_folder
  else run_batches cfg respond batches download_folder ⟨0, 0, 0, 0, 0⟩

/-- The statistics dictionary clean_download_all returns. -/
def clean_download_all (cfg : Config) (respond : Speech → Nat)
    (direct_speeches : List Speech) (batches : List (List Speech))
    (download_folder : List String) : RunStats :=
  (clean_download_all_ex cfg respond direct_speeches batches download_folder).1

/-! ## auth.py : the paginated batch generator -/

/-- The parameters dictionary of one listing request of get_speeches_batch
(lines 327 to 338 of auth.py): folder, page size, and the two optional
pagination cursors, included only when they are not None. -/
structure PageReq where
  folder : Nat
  page_size : Nat
  last_load_ts : Option Nat
  modified_after : Option Nat
  deriving DecidableEq

/-- One parsed listing response, after the dictionary lookups with defaults
on lines 352 to 356 of auth.py: speeches defaults to the empty list,
end_of_list to true, and the two cursor fields to None. -/
structure PageResp where
  status_code : Nat
  speeches : List Speech
  end_of_list : Bool
  last_load_ts : Option Nat
  last_modified_at : Option Nat

/-- The while-loop of auth.get_speeches_batch (lines 322 to 388), with the
upstream modelled by the oracle server mapping the request counter to the
parsed response.  The result collects the requests issued and the batches
yielded, in order.  batch_count is the counter after the increment at the top
of the iteration, so the initial call passes 1.  A non-200 status breaks, an
empty batch breaks before yielding, otherwise the batch is yielded and the
cursors are updated when truthy; then end_of_list breaks, a batch shorter
than requested breaks, and the safety check breaks once the counter exceeds
100. -/
def gsb_loop (server : Nat → PageResp) (batch_size folder : Nat)
    (last_load_ts modified_after : Option Nat) (batch_count : Nat) :
    List PageReq × List (List Speech) :=
  let req : PageReq := ⟨folder, batch_size, last_load_ts, modified_after⟩
  let r := server batch_count
  if r.status_code ≠ 200 then ([req], [])
  else if r.speeches.isEmpty then ([req], [])
  else
    let ts2 := if optNatTruthy r.last_load_ts then r.last_load_ts else last_load_ts
    let ma2 := if optNatTruthy r.last_modified_at then r.last_modified_at else modified_after
    if r.end_of_list then ([req], [r.speeches])
    else if r.speeches.length < batch_size then ([req], [r.speeches])
    else if 100 < batch_count then ([req], [r.speeches])
    else
      let rest := gsb_loop server batch_size folder ts2 ma2 (batch_count + 1)
      (req :: rest.1, r.speeches :: rest.2)
  termination_by 101 - batch_count
  decreasing_by omega

/-- auth.get_speeches_batch: the full run of the pagination loop from an
empty cursor state and counter 1. -/
def get_speeches_batch (server : Nat → PageResp) (batch_size folder : Nat) :
    List PageReq × List (List Speech) :=
  gsb_loop server batch_size folder none none 1

/-! ## auth.py : login -/

/-- The outcome of the upstream otterai login call inside OtterAuth.login:
success, an OtterAIException carrying a message, or any other exception
(network and connection errors) carrying a message. -/
inductive LoginOutcome where
  | success
  | otterError (msg : String)
  | connectionError (msg : String)
  deriving DecidableEq

/-- The observable result of OtterAuth.login: a true return, a false return
(the negative authentication result), or a raised fault with its message. -/
inductive LoginResult where
  | ok
  | authFailure
  | fault (msg : String)
  deriving DecidableEq

/-- Python str.lower, character by character. -/
def lowerStr (s : String) : String :=
  ⟨s.toList.map Char.toLower⟩

/-- Containment of a pattern in a character list, as the Python in operator
on strings. -/
def containsSub (pat : List Char) : List Char → Bool
  | [] => pat.isEmpty
  | c :: cs => pat.isPrefixOf (c :: cs) || containsSub pat cs

/-- Python substring containment: needle in hay. -/
def str_contains (hay needle : String) : Bool :=
  containsSub needle.toList hay.toList

/-- OtterAuth.login (lines 29 to 61 of auth.py) as a function of the outcome
of the upstream login call: success returns true; an OtterAIException whose
lowercased text contains unauthorized or invalid returns false; any other
OtterAIException is re-raised wrapped as an API error; every other exception
is raised wrapped as a connection error. -/
def login (outcome : LoginOutcome) : LoginResult :=
  match outcome with
  | .success => .ok
  | .otterError msg =>
    if str_contains (lowerStr msg) "unauthorized" || str_contains (lowerStr msg) "invalid" then
      .authFailure
    else
      .fault ("Otter.ai API error: " ++ msg)
  | .connectionError msg => .fault ("Connection error: " ++ msg)

/-- The authenticated flag of OtterAuth after the login call: set to true
only on success; set to false on the negative result; left at its initial
false when a fault propagates. -/
def authenticated_after (outcome : LoginOutcome) : Bool :=
  match outcome with
  | .success => true
  | _ => false

/-! ## Concrete scenario data used by witnesses and counterexamples -/

/-- A minimal catalog item with a given id, no title and no text. -/
def idSpeech (n : Nat) : Speech :=
  ⟨"s" ++ Nat.repr n, "o" ++ Nat.repr n, none, none, none⟩

/-- An export oracle for which every export call succeeds. -/
def ok200 : Speech → Nat := fun _ => 200

/-- An upstream that answers every listing request with a full one-item page,
end_of_list false and fresh truthy cursors: the adversarial stream of the
circuit-breaker scenario. -/
def adv_server : Nat → PageResp :=
  fun _ => ⟨200, [idSpeech 0], false, some 1, some 1⟩

/-- The three-page scenario of the specification: two full pages of 50 items
and a third page of 30 items, every page reporting end_of_list false and a
truthy cursor. -/
def pages130 : Nat → PageResp
  | 1 => ⟨200, (List.range 50).map idSpeech, false, some 10, none⟩
  | 2 => ⟨200, (List.range 50).map (fun i => idSpeech (50 + i)), false, some 20, none⟩
  | _ => ⟨200, (List.range 30).map (fun i => idSpeech (100 + i)), false, some 30, none⟩

/-- An upstream whose first page is successfully fetched but empty, with
end_of_list false. -/
def empty_page_server : Nat → PageResp
  | 1 => ⟨200, [], false, some 1, some 1⟩
  | _ => ⟨200, [], true, none, none⟩

/-- An upstream whose first page is full (one item at page size one) with
end_of_list false but with both cursors absent, and whose second page is
empty: the missing-cursor-on-a-non-final-page scenario. -/
def no_cursor_server : Nat → PageResp
  | 1 => ⟨200, [idSpeech 0], false, none, none⟩
  | _ => ⟨200, [], true, none, none⟩

/-- The configuration of the cap counterexample run: batch path (the cap 101
exceeds 100), overwrite off, no length filter. -/
def c1_cfg : Config := ⟨"txt", false, 0, some 101⟩

/-- Three full batches of 50 distinct items, as the generator yields them
with batch_size 50. -/
def c1_batches : List (List Speech) :=
  [(List.range 50).map idSpeech,
   (List.range 50).map (fun i => idSpeech (50 + i)),
   (List.range 50).map (fun i => idSpeech (100 + i))]

/-- The configuration of the ten-item error-isolation scenario: no cap, no
length filter. -/
def c3_cfg : Config := ⟨"txt", false, 0, none⟩

/-- The ten items of the error-isolation scenario. -/
def c3_items : List Speech := (List.range 10).map idSpeech

/-- The export oracle of the error-isolation scenario: the item with id s4
gets HTTP 500, every other item succeeds. -/
def c3_respond : Speech → Nat :=
  fun sp => if sp.speech_id = "s4" then 500 else 200

/-- The destination listing after the first four items of the ten-item
scenario have been downloaded. -/
def c3_folder4 : List String :=
  ["Untitled_s3.txt", "Untitled_s2.txt", "Untitled_s1.txt", "Untitled_s0.txt"]

/-- The statistics just before the fifth item of the ten-item scenario. -/
def c3_stats4 : RunStats := ⟨10, 4, 0, 0, 0⟩

/-- A destination listing already holding a file for the id abc. -/
def c6_folder : List String := ["X_abc.txt"]

/-- An already-downloaded item whose summary is shorter than the minimum:
with overwrite on, the code filters it instead of downloading it. -/
def c6_speech : Speech := ⟨"abc", "o1", some "T", none, some "short"⟩

/-- An already-downloaded item with no transcript or summary text. -/
def c6_speech_no_text : Speech := ⟨"abc", "o1", some "Title", none, none⟩

/-- The configuration of the length-filter scenario: minimum 200. -/
def c7_cfg : Config := ⟨"txt", false, 200, none⟩

/-- An item whose summary has exactly 150 characters. -/
def c7_speech : Speech := ⟨"s1", "o1", some "T", none, some ⟨List.replicate 150 'a'⟩⟩

/-- The configuration of the disabled-cap scenario: max_downloads zero. -/
def c10_cfg : Config := ⟨"txt", false, 0, some 0⟩

/-! ## Bookkeeping lemmas for the downloader loops -/

theorem addTotal_total (n : Nat) (s : RunStats) : (addTotal n s).total = s.total + n := rfl

theorem bucket_sum_addTotal (n : Nat) (s : RunStats) :
    bucket_sum (addTotal n s) = bucket_sum s := rfl

theorem process_speech_total (cfg : Config) (respond : Speech → Nat)
    (download_folder : List String) (stats : RunStats) (sp : Speech) :
    (process_speech cfg respond download_folder stats sp).2.total = stats.total := by
  cases h : plan_decision download_folder cfg.overwrite cfg.min_transcript_length cfg.format sp <;>
    simp [process_speech, h, addSkipped, addFiltered, addDownloaded, addErrors] <;>
    split <;> simp [addDownloaded, addErrors]

theorem process_speech_bucket (cfg : Config) (respond : Speech → Nat)
    (download_folder : List String) (stats : RunStats) (sp : Speech) :
    bucket_sum (process_speech cfg respond download_folder stats sp).2 = bucket_sum stats + 1 := by
  cases h : plan_decision download_folder cfg.overwrite cfg.min_transcript_length cfg.format sp <;>
    simp [process_speech, h, bucket_sum, addSkipped, addFiltered, addDownloaded, addErrors]
  · omega
  · omega
  · split <;> simp [bucket_sum, addDownloaded, addErrors] <;> omega

theorem process_items_spec (cfg : Config) (respond : Speech → Nat) :
    ∀ (l : List Speech) (download_folder : List String) (stats : RunStats),
      (process_items cfg respond l download_folder stats).2.1.total = stats.total ∧
      ∃ p, p ≤ l.length ∧
        bucket_sum (process_items cfg respond l download_folder stats).2.1 = bucket_sum stats + p ∧
        ((process_items cfg respond l download_folder stats).2.2 = false → p = l.length) := by
  intro l
  induction l with
  | nil =>
    intro download_folder stats
    exact ⟨rfl, 0, Nat.le_refl 0, by simp [process_items], fun _ => rfl⟩
  | cons sp rest ih =>
    intro download_folder stats
    rw [process_items]
    split
    · exact ⟨rfl, 0, Nat.zero_le _, by simp, by simp⟩
    · obtain ⟨ht, p, hp, hb, hfull⟩ :=
        ih (process_speech cfg respond download_folder stats sp).1
          (process_speech cfg respond download_folder stats sp).2
      refine ⟨ht.trans (process_speech_total ..), p + 1, by simp; omega, ?_,
        fun he => by simp [hfull he]⟩
      rw [hb, process_speech_bucket]
      omega

theorem run_batches_spec (cfg : Config) (respond : Speech → Nat) :
    ∀ (batches : List (List Speech)) (download_folder : List String) (stats : RunStats),
      (bucket_sum stats ≤ stats.total →
        bucket_sum (run_batches cfg respond batches download_folder stats).1 ≤
          (run_batches cfg respond batches download_folder stats).1.total) ∧
      ((run_batches cfg respond batches download_folder stats).2 = false →
        bucket_sum stats = stats.total →
        bucket_sum (run_batches cfg respond batches download_folder stats).1 =
          (run_batches cfg respond batches download_folder stats).1.total) := by
  intro batches
  induction batches with
  | nil => exact fun download_folder stats => ⟨fun h => h, fun _ h => h⟩
  | cons b rest ih =>
    intro download_folder stats
    rw [run_batches]
    obtain ⟨ht, p, hp, hb, hfull⟩ :=
      process_items_spec cfg respond b download_folder (addTotal b.length stats)
    rw [addTotal_total] at ht
    rw [bucket_sum_addTotal] at hb
    split
    · rename_i hexit
      refine ⟨fun hle => ?_, fun hfalse => by simp at hfalse⟩
      rw [hb, ht]
      omega
    · rename_i hexit
      obtain ⟨ih1, ih2⟩ :=
        ih (process_items cfg respond b download_folder (addTotal b.length stats)).1
          (process_items cfg respond b download_folder (addTotal b.length stats)).2.1
      have hexitb :
          (process_items cfg respond b download_folder (addTotal b.length stats)).2.2 = false := by
        revert hexit
        cases (process_items cfg respond b download_folder (addTotal b.length stats)).2.2 <;> simp
      refine ⟨fun hle => ih1 (by rw [hb, ht]; omega), fun hexit2 heq => ?_⟩
      exact ih2 hexit2 (by rw [hb, ht, hfull hexitb]; omega)

theorem run_direct_spec (cfg : Config) (respond : Speech → Nat) (speeches : List Speech)
    (download_folder : List String) :
    (bucket_sum (run_direct cfg respond speeches download_folder).1 ≤
      (run_direct cfg respond speeches download_folder).1.total) ∧
    ((run_direct cfg respond speeches download_folder).2 = false →
      bucket_sum (run_direct cfg respond speeches download_folder).1 =
        (run_direct cfg respond speeches download_folder).1.total) := by
  obtain ⟨ht, p, hp, hb, hfull⟩ :=
    process_items_spec cfg respond speeches download_folder ⟨speeches.length, 0, 0, 0, 0⟩
  have hbs : bucket_sum (⟨speeches.length, 0, 0, 0, 0⟩ : RunStats) = 0 := rfl
  rw [hbs] at hb
  simp only [run_direct]
  constructor
  · rw [hb, ht]
    simpa using hp
  · intro hexit
    rw [hb, ht, hfull hexit]
    simp

/-! ## Request-count lemmas for the paginator -/

theorem gsb_loop_req_bound (server : Nat → PageResp) (batch_size folder : Nat) :
    ∀ n k lt ma, 101 - k ≤ n →
      (gsb_loop server batch_size folder lt ma k).1.length ≤ 1 + (101 - k) := by
  intro n
  induction n with
  | zero =>
    intro k lt ma hk
    rw [gsb_loop]
    set lt2 := if optNatTruthy (server k).last_load_ts then (server k).last_load_ts else lt
    set ma2 := if optNatTruthy (server k).last_modified_at then (server k).last_modified_at else ma
    split
    · simp
    split
    · simp
    split
    · simp
    split
    · simp
    split
    · simp
    · rename_i hcap
      omega
  | succ n ih =>
    intro k lt ma hk
    rw [gsb_loop]
    set lt2 := if optNatTruthy (server k).last_load_ts then (server k).last_load_ts else lt
    set ma2 := if optNatTruthy (server k).last_modified_at then (server k).last_modified_at else ma
    split
    · simp
    split
    · simp
    split
    · simp
    split
    · simp
    split
    · simp
    · rename_i hcap
      simp only [List.length_cons]
      have := ih (k + 1) lt2 ma2 (by omega)
      omega

theorem adv_server_count : ∀ n k lt ma, k ≤ 101 → 101 - k ≤ n →
    (gsb_loop adv_server 1 0 lt ma k).1.length = 102 - k := by
  intro n
  induction n with
  | zero =>
    intro k lt ma h101 hk
    have hke : k = 101 := by omega
    subst hke
    rw [gsb_loop]
    simp [adv_server]
  | succ n ih =>
    intro k lt ma h101 hk
    by_cases hcap : 100 < k
    · have hke : k = 101 := by omega
      subst hke
      rw [gsb_loop]
      simp [adv_server]
    · rw [gsb_loop]
      simp only [adv_server, optNatTruthy]
      norm_num
      rw [if_neg hcap]
      simp only [List.length_cons]
      rw [ih (k + 1) (some 1) (some 1) (by omega) (by omega)]
      omega

/-! ## Claim theorems -/

/-- Claim C1 (amended).  For every run of clean_download_all, the four
terminal buckets sum to at most total, with equality whenever the run was not
cut short by the successful-download cap; when the cap does stop the run
early, total counts every item fetched so far, including the unscanned
remainder of the final batch. -/
theorem claim_C1_run_stats_total (cfg : Config) (respond : Speech → Nat)
    (direct_speeches : List Speech) (batches : List (List Speech))
    (download_folder : List String) :
    ((clean_download_all_ex cfg respond direct_speeches batches download_folder).2 = false →
      (clean_download_all_ex cfg respond direct_speeches batches download_folder).1.total =
        bucket_sum (clean_download_all_ex cfg respond direct_speeches batches download_folder).1) ∧
    bucket_sum (clean_download_all_ex cfg respond direct_speeches batches download_folder).1 ≤
      (clean_download_all_ex cfg respond direct_speeches batches download_folder).1.total := by
  unfold clean_download_all_ex
  split
  · obtain ⟨h1, h2⟩ := run_direct_spec cfg respond direct_speeches download_folder
    exact ⟨fun he => (h2 he).symm, h1⟩
  · obtain ⟨h1, h2⟩ := run_batches_spec cfg respond batches download_folder ⟨0, 0, 0, 0, 0⟩
    exact ⟨fun he => (h2 he rfl).symm, h1 (by simp [bucket_sum])⟩

/-- Witness for claim C1: a completed ten-item run where total equals the
bucket sum. -/
theorem claim_C1_run_stats_total_witness :
    (clean_download_all_ex c3_cfg c3_respond [] [c3_items] []).2 = false ∧
    (clean_download_all_ex c3_cfg c3_respond [] [c3_items] []).1.total =
      bucket_sum (clean_download_all_ex c3_cfg c3_respond [] [c3_items] []).1 :=
  ⟨by rfl, (claim_C1_run_stats_total c3_cfg c3_respond [] [c3_items] []).1 (by rfl)⟩

/-- Counterexample to claim C1 as stated: with a cap of 101 and three
batches of 50, the run stops mid-batch after 101 downloads, but total is
150, counting the whole final batch, not the 101 items scanned before the
cap, and the bucket sum 101 differs from it. -/
theorem claim_C1_counterexample :
    clean_download_all_ex c1_cfg ok200 [] c1_batches [] = (⟨150, 101, 0, 0, 0⟩, true) ∧
    (150 : Nat) ≠ 101 + 0 + 0 + 0 := by
  exact ⟨by decide, by decide⟩

/-- Claim C2 (amended).  For every upstream behaviour, the pagination loop of
get_speeches_batch issues at most 101 listing requests, one more than the
hard ceiling constant 100 of its safety check, and then terminates. -/
theorem claim_C2_circuit_breaker (server : Nat → PageResp) (batch_size folder : Nat) :
    (get_speeches_batch server batch_size folder).1.length ≤ 101 := by
  have h := gsb_loop_req_bound server batch_size folder 101 1 none none (by omega)
  simpa [get_speeches_batch] using h

/-- Counterexample to claim C2 as stated: against an upstream that always
answers a full page with end_of_list false and a fresh cursor, the loop
issues 101 requests, exceeding the ceiling constant 100. -/
theorem claim_C2_counterexample :
    (get_speeches_batch adv_server 1 0).1.length = 101 ∧
    ¬ (get_speeches_batch adv_server 1 0).1.length ≤ 100 := by
  have h := adv_server_count 101 1 none none (by omega) (by omega)
  rw [get_speeches_batch]
  omega



/-- Claim C3.  A non-200 export response for one item writes no file,
increments errors by exactly one, and the loop then processes the remaining
items exactly as it would have from the same state. -/
theorem claim_C3_error_isolation (cfg : Config) (respond : Speech → Nat) (sp : Speech)
    (rest : List Speech) (download_folder : List String) (stats : RunStats)
    (hcap : cap_reached cfg.max_downloads stats.downloaded = false)
    (hplan : plan_decision download_folder cfg.overwrite cfg.min_transcript_length cfg.format sp =
      .download)
    (hstatus : respond sp ≠ 200) :
    download_speech respond sp download_folder cfg.format = (false, download_folder) ∧
    process_items cfg respond (sp :: rest) download_folder stats =
      process_items cfg respond rest download_folder (addErrors stats) := by
  have hds : download_speech respond sp download_folder cfg.format = (false, download_folder) := by
    simp [download_speech, hstatus]
  have hps : process_speech cfg respond download_folder stats sp =
      (download_folder, addErrors stats) := by
    simp [process_speech, hplan, hds]
  refine ⟨hds, ?_⟩
  rw [process_items, if_neg (by simp [hcap]), hps]

/-- Witness for claim C3: the ten-item scenario with one HTTP 500 on the
fifth item; the faulty item moves to errors, the rest are still processed,
and the finished run reports nine downloads and one error. -/
theorem claim_C3_error_isolation_witness :
    cap_reached c3_cfg.max_downloads c3_stats4.downloaded = false ∧
    plan_decision c3_folder4 c3_cfg.overwrite c3_cfg.min_transcript_length c3_cfg.format
      (idSpeech 4) = .download ∧
    c3_respond (idSpeech 4) ≠ 200 ∧
    download_speech c3_respond (idSpeech 4) c3_folder4 c3_cfg.format = (false, c3_folder4) ∧
    process_items c3_cfg c3_respond (idSpeech 4 :: (List.range 5).map (fun i => idSpeech (5 + i)))
        c3_folder4 c3_stats4 =
      process_items c3_cfg c3_respond ((List.range 5).map (fun i => idSpeech (5 + i)))
        c3_folder4 (addErrors c3_stats4) ∧
    (run_direct c3_cfg c3_respond c3_items []).1 = ⟨10, 9, 0, 0, 1⟩ := by
  have h := claim_C3_error_isolation c3_cfg c3_respond (idSpeech 4)
    ((List.range 5).map (fun i => idSpeech (5 + i))) c3_folder4 c3_stats4
    (by decide) (by decide) (by decide)
  exact ⟨by decide, by decide, by decide, h.1, h.2, by decide⟩

/-- Claim C10.  A max_downloads of zero is falsy in both the path-selection
test and the per-item cap test, so the run takes the batch path and behaves
exactly as a run with max_downloads None: the cap is disabled rather than
stopping after zero downloads. -/
theorem claim_C10_zero_cap_disabled (cfg : Config) (respond : Speech → Nat)
    (direct_speeches : List Speech) (batches : List (List Speech))
    (download_folder : List String) (h0 : cfg.max_downloads = some 0) :
    direct_path cfg.max_downloads = false ∧
    clean_download_all_ex cfg respond direct_speeches batches download_folder =
      clean_download_all_ex ⟨cfg.format, cfg.overwrite, cfg.min_transcript_length, none⟩
        respond direct_speeches batches download_folder := by
  have hdp : direct_path cfg.max_downloads = false := by rw [h0]; rfl
  have hcap : ∀ d, cap_reached cfg.max_downloads d = false := fun d => by rw [h0]; rfl
  refine ⟨hdp, ?_⟩
  have hpi : ∀ (l : List Speech) (f : List String) (s : RunStats),
      process_items cfg respond l f s =
        process_items ⟨cfg.format, cfg.overwrite, cfg.min_transcript_length, none⟩ respond l f s := by
    intro l
    induction l with
    | nil => intro f s; rfl
    | cons sp rest ih =>
      intro f s
      rw [process_items, process_items, hcap]
      show _ = if cap_reached none s.downloaded then _ else _
      rw [show cap_reached none s.downloaded = false from rfl]
      simp only [Bool.false_eq_true, if_false]
      exact ih _ _
  have hrb : ∀ (bs : List (List Speech)) (f : List String) (s : RunStats),
      run_batches cfg respond bs f s =
        run_batches ⟨cfg.format, cfg.overwrite, cfg.min_transcript_length, none⟩ respond bs f s := by
    intro bs
    induction bs with
    | nil => intro f s; rfl
    | cons b rest ih =>
      intro f s
      rw [run_batches, run_batches, hpi]
      split
      · rfl
      · exact ih _ _
  unfold clean_download_all_ex
  rw [hdp]
  rw [show direct_path (none : Option Nat) = false from rfl]
  simp only [Bool.false_eq_true, if_false]
  exact hrb batches download_folder ⟨0, 0, 0, 0, 0⟩

/-- Witness for claim C10: a concrete one-batch run with max_downloads zero
takes the batch path and returns the same statistics as the run with the cap
absent. -/
theorem claim_C10_zero_cap_disabled_witness :
    c10_cfg.max_downloads = some 0 ∧
    direct_path c10_cfg.max_downloads = false ∧
    clean_download_all_ex c10_cfg ok200 [] [[idSpeech 0]] [] =
      clean_download_all_ex ⟨c10_cfg.format, c10_cfg.overwrite, c10_cfg.min_transcript_length, none⟩
        ok200 [] [[idSpeech 0]] [] := by
  have h := claim_C10_zero_cap_disabled c10_cfg ok200 [] [[idSpeech 0]] [] (by decide)
  exact ⟨by decide, h.1, h.2⟩



theorem gsb_loop_head (server : Nat → PageResp) (batch_size folder : Nat)
    (lt ma : Option Nat) (k : Nat) :
    (gsb_loop server batch_size folder lt ma k).1.head? =
      some ⟨folder, batch_size, lt, ma⟩ := by
  rw [gsb_loop]
  set lt2 := if optNatTruthy (server k).last_load_ts then (server k).last_load_ts else lt
  set ma2 := if optNatTruthy (server k).last_modified_at then (server k).last_modified_at else ma
  split
  · rfl
  split
  · rfl
  split
  · rfl
  split
  · rfl
  split
  · rfl
  · rfl

/-- Claim C4 (amended).  A successfully fetched non-empty page with fewer
items than the requested size is final regardless of the end-of-list flag:
the loop yields it and issues no further request. -/
theorem claim_C4_short_page_final (server : Nat → PageResp) (batch_size folder : Nat)
    (last_load_ts modified_after : Option Nat) (batch_count : Nat)
    (h200 : (server batch_count).status_code = 200)
    (hne : (server batch_count).speeches ≠ [])
    (hshort : (server batch_count).speeches.length < batch_size) :
    gsb_loop server batch_size folder last_load_ts modified_after batch_count =
      ([⟨folder, batch_size, last_load_ts, modified_after⟩], [(server batch_count).speeches]) := by
  by_cases heol : (server batch_count).end_of_list = true
  · rw [gsb_loop]
    simp [h200, List.isEmpty_iff, hne, heol]
  · rw [gsb_loop]
    simp [h200, List.isEmpty_iff, hne, heol, hshort]

/-- Witness for claim C4: the three-page 50, 50, 30 scenario; the third page
is short, so the run makes exactly three requests and yields 130 items. -/
theorem claim_C4_short_page_final_witness :
    (pages130 3).status_code = 200 ∧ (pages130 3).speeches ≠ [] ∧
    (pages130 3).speeches.length < 50 ∧
    gsb_loop pages130 50 0 (some 20) none 3 =
      ([⟨0, 50, some 20, none⟩], [(pages130 3).speeches]) ∧
    (get_speeches_batch pages130 50 0).1.length = 3 ∧
    (get_speeches_batch pages130 50 0).2.map List.length = [50, 50, 30] := by
  have h3 := claim_C4_short_page_final pages130 50 0 (some 20) none 3 rfl
    (by decide) (by decide)
  have h2 : gsb_loop pages130 50 0 (some 10) none 2 =
      ([⟨0, 50, some 10, none⟩, ⟨0, 50, some 20, none⟩],
       [(pages130 2).speeches, (pages130 3).speeches]) := by
    rw [gsb_loop]
    simp only [pages130, optNatTruthy]
    norm_num
    rw [h3]
    exact ⟨rfl, rfl⟩
  have h1 : gsb_loop pages130 50 0 none none 1 =
      ([⟨0, 50, none, none⟩, ⟨0, 50, some 10, none⟩, ⟨0, 50, some 20, none⟩],
       [(pages130 1).speeches, (pages130 2).speeches, (pages130 3).speeches]) := by
    rw [gsb_loop]
    simp only [pages130, optNatTruthy]
    norm_num
    rw [h2]
    exact ⟨rfl, rfl⟩
  refine ⟨rfl, by decide, by decide, h3, ?_, ?_⟩
  · rw [get_speeches_batch, h1]
    rfl
  · rw [get_speeches_batch, h1]
    decide

/-- Counterexample to claim C4 as stated: a successfully fetched page with
zero items, fewer than the requested 50, stops the loop but is not yielded:
the yield list is empty rather than containing that empty batch. -/
theorem claim_C4_counterexample :
    (empty_page_server 1).status_code = 200 ∧
    (empty_page_server 1).speeches.length < 50 ∧
    (get_speeches_batch empty_page_server 50 0).1.length = 1 ∧
    (get_speeches_batch empty_page_server 50 0).2 = [] ∧
    (get_speeches_batch empty_page_server 50 0).2 ≠ [(empty_page_server 1).speeches] := by
  have h : get_speeches_batch empty_page_server 50 0 = ([⟨0, 50, none, none⟩], []) := by
    rw [get_speeches_batch, gsb_loop]
    simp [empty_page_server]
  rw [h]
  refine ⟨rfl, by decide, rfl, rfl, by simp⟩



/-- Claim C5 (amended).  When a successfully fetched non-final page (the
end-of-list flag false, a full batch) carries no truthy pagination cursor,
the loop does not stop: it proceeds to the next iteration, and the next
request it issues reuses the previously held last_load_ts value unchanged. -/
theorem claim_C5_missing_cursor_continues (server : Nat → PageResp) (batch_size folder : Nat)
    (last_load_ts modified_after ma2 : Option Nat) (batch_count : Nat)
    (h200 : (server batch_count).status_code = 200)
    (hne : (server batch_count).speeches ≠ [])
    (heol : (server batch_count).end_of_list = false)
    (hfull : ¬ (server batch_count).speeches.length < batch_size)
    (hnocur : optNatTruthy (server batch_count).last_load_ts = false)
    (hcap : batch_count ≤ 100)
    (hma2 : ma2 = if optNatTruthy (server batch_count).last_modified_at then
      (server batch_count).last_modified_at else modified_after) :
    gsb_loop server batch_size folder last_load_ts modified_after batch_count =
      (⟨folder, batch_size, last_load_ts, modified_after⟩ ::
         (gsb_loop server batch_size folder last_load_ts ma2 (batch_count + 1)).1,
       (server batch_count).speeches ::
         (gsb_loop server batch_size folder last_load_ts ma2 (batch_count + 1)).2) ∧
    (gsb_loop server batch_size folder last_load_ts ma2 (batch_count + 1)).1.head? =
      some ⟨folder, batch_size, last_load_ts, ma2⟩ := by
  subst hma2
  refine ⟨?_, gsb_loop_head ..⟩
  have hcap2 : ¬ (100 < batch_count) := by omega
  rw [gsb_loop]
  simp [h200, List.isEmpty_iff, hne, heol, hnocur, hfull, hcap2]

/-- Witness for claim C5: the first page of the no-cursor upstream is full
with end_of_list false and no cursor; the loop issues a second request whose
last_load_ts is still absent, and the whole run makes two requests. -/
theorem claim_C5_missing_cursor_continues_witness :
    (no_cursor_server 1).status_code = 200 ∧ (no_cursor_server 1).speeches ≠ [] ∧
    (no_cursor_server 1).end_of_list = false ∧
    ¬ (no_cursor_server 1).speeches.length < 1 ∧
    optNatTruthy (no_cursor_server 1).last_load_ts = false ∧
    gsb_loop no_cursor_server 1 0 none none 1 =
      (⟨0, 1, none, none⟩ :: (gsb_loop no_cursor_server 1 0 none none 2).1,
       (no_cursor_server 1).speeches :: (gsb_loop no_cursor_server 1 0 none none 2).2) ∧
    (gsb_loop no_cursor_server 1 0 none none 2).1.head? = some ⟨0, 1, none, none⟩ := by
  have h := claim_C5_missing_cursor_continues no_cursor_server 1 0 none none none 1
    rfl (by decide) rfl (by decide) rfl (by omega) rfl
  exact ⟨rfl, by decide, rfl, by decide, rfl, h.1, h.2⟩

/-- Counterexample to claim C5 as stated: with a full first page reporting
end_of_list false and no cursor, the paginator does not stop after one
request; it issues a second request with the absent cursor. -/
theorem claim_C5_counterexample :
    (no_cursor_server 1).end_of_list = false ∧
    (no_cursor_server 1).last_load_ts = none ∧
    (no_cursor_server 1).speeches.length = 1 ∧
    (get_speeches_batch no_cursor_server 1 0).1 = [⟨0, 1, none, none⟩, ⟨0, 1, none, none⟩] ∧
    (get_speeches_batch no_cursor_server 1 0).1.length ≠ 1 := by
  have h2 : gsb_loop no_cursor_server 1 0 none none 2 = ([⟨0, 1, none, none⟩], []) := by
    rw [gsb_loop]
    simp [no_cursor_server]
  have h1 : get_speeches_batch no_cursor_server 1 0 =
      ([⟨0, 1, none, none⟩, ⟨0, 1, none, none⟩], [[idSpeech 0]]) := by
    rw [get_speeches_batch, gsb_loop]
    simp [no_cursor_server, optNatTruthy]
    rw [h2]
    exact ⟨rfl, rfl⟩
  rw [h1]
  exact ⟨rfl, rfl, rfl, rfl, by simp⟩



/-- Claim C6 (amended).  For an item whose id matches an existing destination
file: with overwrite off the decision is skip-existing for every minimum
length and any title or text, so the length filter is never consulted; with
overwrite on the existence check is bypassed and the item falls through to
the length filter, downloading exactly when the filter does not catch it. -/
theorem claim_C6_existing_file_decision (download_folder : List String) (sp : Speech)
    (format : String)
    (hex : speech_already_downloaded sp.speech_id download_folder format = true) :
    (∀ min_transcript_length,
      plan_decision download_folder false min_transcript_length format sp = .skipExisting) ∧
    (∀ min_transcript_length,
      plan_decision download_folder true min_transcript_length format sp =
        if effective_transcript sp ≠ "" ∧ (effective_transcript sp).length < min_transcript_length
        then .skipFiltered else .download) := by
  constructor
  · intro m
    simp [plan_decision, hex]
  · intro m
    simp [plan_decision, hex]

/-- Witness for claim C6: an already-downloaded item with no text is skipped
with overwrite off and downloaded with overwrite on. -/
theorem claim_C6_existing_file_decision_witness :
    speech_already_downloaded c6_speech_no_text.speech_id c6_folder "txt" = true ∧
    plan_decision c6_folder false 200 "txt" c6_speech_no_text = .skipExisting ∧
    plan_decision c6_folder true 200 "txt" c6_speech_no_text = .download := by
  have h := claim_C6_existing_file_decision c6_folder c6_speech_no_text "txt" (by decide)
  refine ⟨by decide, h.1 200, ?_⟩
  rw [h.2 200]
  decide

/-- Counterexample to claim C6 as stated: an already-downloaded item whose
summary is shorter than the minimum is filtered, not downloaded, when
overwrite is on. -/
theorem claim_C6_counterexample :
    speech_already_downloaded c6_speech.speech_id c6_folder "txt" = true ∧
    plan_decision c6_folder true 200 "txt" c6_speech = .skipFiltered ∧
    SyncDecision.skipFiltered ≠ SyncDecision.download := by
  exact ⟨by decide, by decide, by decide⟩

/-- Claim C7.  Provided the existence check has not already claimed the item,
the decision is skip-filtered exactly when the effective transcript or
summary text is non-empty yet shorter than the configured minimum, and in
that case the loop counts the item in filtered and writes nothing. -/
theorem claim_C7_length_filter (cfg : Config) (download_folder : List String) (sp : Speech)
    (hnoskip : (speech_already_downloaded sp.speech_id download_folder cfg.format &&
      !cfg.overwrite) = false) :
    (plan_decision download_folder cfg.overwrite cfg.min_transcript_length cfg.format sp =
        .skipFiltered ↔
      (effective_transcript sp ≠ "" ∧
        (effective_transcript sp).length < cfg.min_transcript_length)) ∧
    (∀ (respond : Speech → Nat) (stats : RunStats),
      effective_transcript sp ≠ "" →
      (effective_transcript sp).length < cfg.min_transcript_length →
      process_speech cfg respond download_folder stats sp = (download_folder, addFiltered stats)) := by
  have hplan : plan_decision download_folder cfg.overwrite cfg.min_transcript_length cfg.format sp =
      if effective_transcript sp ≠ "" ∧
        (effective_transcript sp).length < cfg.min_transcript_length
      then .skipFiltered else .download := by
    simp [plan_decision, hnoskip]
  constructor
  · rw [hplan]
    split
    · rename_i hc
      simpa using hc
    · rename_i hc
      simp [hc]
  · intro respond stats h1 h2
    simp [process_speech, hplan, h1, h2]

set_option maxRecDepth 10000 in
/-- Witness for claim C7: an item with a 150-character summary against a
200-character minimum is decided skip-filtered, the filtered counter moves by
one, and the destination folder is unchanged. -/
theorem claim_C7_length_filter_witness :
    (speech_already_downloaded c7_speech.speech_id [] c7_cfg.format && !c7_cfg.overwrite) = false ∧
    effective_transcript c7_speech ≠ "" ∧
    (effective_transcript c7_speech).length < c7_cfg.min_transcript_length ∧
    plan_decision [] c7_cfg.overwrite c7_cfg.min_transcript_length c7_cfg.format c7_speech =
      .skipFiltered ∧
    process_speech c7_cfg ok200 [] ⟨1, 0, 0, 0, 0⟩ c7_speech = ([], addFiltered ⟨1, 0, 0, 0, 0⟩) := by
  have h := claim_C7_length_filter c7_cfg [] c7_speech (by decide)
  exact ⟨by decide, by decide, by decide, h.1.mpr ⟨by decide, by decide⟩,
    h.2 ok200 ⟨1, 0, 0, 0, 0⟩ (by decide) (by decide)⟩

/-- Claim C8.  The login wrapper returns the negative result exactly when the
upstream OtterAIException text, lowercased, contains unauthorized or invalid,
leaving the session unauthenticated; any other upstream API error and every
connection-level error is re-raised as a fault rather than returned as
false. -/
theorem claim_C8_login_classification (outcome : LoginOutcome) :
    (login outcome = .authFailure ↔
      ∃ msg, outcome = .otterError msg ∧
        (str_contains (lowerStr msg) "unauthorized" = true ∨
         str_contains (lowerStr msg) "invalid" = true)) ∧
    (login outcome = .authFailure → authenticated_after outcome = false) ∧
    (∀ msg, outcome = .otterError msg →
      str_contains (lowerStr msg) "unauthorized" = false →
      str_contains (lowerStr msg) "invalid" = false →
      login outcome = .fault ("Otter.ai API error: " ++ msg)) ∧
    (∀ msg, outcome = .connectionError msg →
      login outcome = .fault ("Connection error: " ++ msg)) := by
  cases outcome with
  | success =>
    refine ⟨?_, ?_, ?_, ?_⟩
    · simp [login]
    · intro h
      simp [login] at h
    · intro msg h
      simp at h
    · intro msg h
      simp at h
  | otterError m =>
    refine ⟨?_, ?_, ?_, ?_⟩
    · constructor
      · intro h
        refine ⟨m, rfl, ?_⟩
        by_contra hno
        push_neg at hno
        simp [login, hno.1, hno.2] at h
      · rintro ⟨msg, hmsg, hmark⟩
        cases hmsg
        rcases hmark with h | h <;> simp [login, h]
    · intro h
      rfl
    · intro msg hmsg hu hi
      cases hmsg
      simp [login, hu, hi]
    · intro msg h
      simp at h
  | connectionError m =>
    refine ⟨?_, ?_, ?_, ?_⟩
    · simp [login]
    · intro h
      simp [login] at h
    · intro msg h
      simp at h
    · intro msg h
      cases h
      rfl

/-- Witness for claim C8: an OtterAIException saying Invalid credentials
yields the negative result with the session unauthenticated, while a
connection error whose text also says invalid is raised as a fault. -/
theorem claim_C8_login_classification_witness :
    login (.otterError "Invalid credentials") = .authFailure ∧
    authenticated_after (.otterError "Invalid credentials") = false ∧
    login (.connectionError "invalid host") = .fault ("Connection error: invalid host") := by
  have h1 := (claim_C8_login_classification (.otterError "Invalid credentials")).1.mpr
    ⟨"Invalid credentials", rfl, Or.inr (by decide)⟩
  have h2 := (claim_C8_login_classification (.connectionError "invalid host")).2.2.2
    "invalid host" rfl
  exact ⟨h1, by decide, h2⟩

/-! ## Slug canonical-form lemmas and claim C9 -/

theorem head?_mem_of (l : List Char) (c : Char) (h : l.head? = some c) : c ∈ l := by
  cases l with
  | nil => simp at h
  | cons a t =>
    simp at h
    simp [h]

theorem getLast?_mem_of : ∀ (l : List Char) (c : Char), l.getLast? = some c → c ∈ l
  | [], c, h => by simp at h
  | [a], c, h => by
    simp at h
    simp [h]
  | a :: b :: t, c, h => by
    rw [List.getLast?_cons_cons] at h
    exact List.mem_cons_of_mem a (getLast?_mem_of (b :: t) c h)

theorem isSpaceChar_cases (c : Char) (h : isSpaceChar c = true) :
    c = ' ' ∨ c = '\t' ∨ c = '\n' ∨ c = '\r' ∨ c = '\x0b' ∨ c = '\x0c' := by
  simpa [isSpaceChar, or_assoc] using h

theorem good_not_space (c : Char) (hg : goodChar c = true) : isSpaceChar c = false := by
  by_contra h
  rw [Bool.not_eq_false] at h
  rcases isSpaceChar_cases c h with h | h | h | h | h | h <;> subst h <;> exact absurd hg (by decide)

theorem good_not_sep (c : Char) (hg : goodChar c = true) : inSepClass c = false := by
  by_contra h
  rw [Bool.not_eq_false] at h
  have h2 : isSpaceChar c = true ∨ c = '/' ∨ c = '_' ∨ c = '|' := by simpa [inSepClass, or_assoc] using h
  rcases h2 with h2 | h2 | h2 | h2
  · exact absurd (good_not_space c hg) (by simp [h2])
  · subst h2; exact absurd hg (by decide)
  · subst h2; exact absurd hg (by decide)
  · subst h2; exact absurd hg (by decide)

theorem good_keep (c : Char) (hg : goodChar c = true) : keepChar c = true := by
  have h2 : (isWordChar c = true ∧ ¬ c = '_') ∨ c = '-' ∨ c = '.' := by
    simpa [goodChar, or_assoc] using hg
  rcases h2 with ⟨hw, _⟩ | h2 | h2
  · simp [keepChar, hw]
  · subst h2; decide
  · subst h2; decide

theorem keep_notsep_good (c : Char) (hk : keepChar c = true) (hs : inSepClass c = false) :
    goodChar c = true := by
  have h2 : isWordChar c = true ∨ c = '-' ∨ c = '.' := by simpa [keepChar, or_assoc] using hk
  rcases h2 with h2 | h2 | h2
  · have hu : ¬ c = '_' := by
      intro hu
      subst hu
      simp [inSepClass] at hs
    simp [goodChar, h2, hu]
  · subst h2; decide
  · subst h2; decide



theorem lstripWhile_eq_self (p : Char → Bool) (l : List Char)
    (h : ∀ c, l.head? = some c → p c = false) : lstripWhile p l = l := by
  cases l with
  | nil => rfl
  | cons a t => rw [lstripWhile, if_neg (by simp [h a rfl])]

theorem head_lstripWhile (p : Char → Bool) :
    ∀ (l : List Char) (c : Char), (lstripWhile p l).head? = some c → p c = false
  | [], c, h => by simp [lstripWhile] at h
  | a :: t, c, h => by
    rw [lstripWhile] at h
    by_cases hp : p a = true
    · rw [if_pos hp] at h
      exact head_lstripWhile p t c h
    · rw [if_neg hp] at h
      simp at h hp
      rwa [← h]

theorem mem_lstripWhile (p : Char → Bool) :
    ∀ (l : List Char) (c : Char), c ∈ lstripWhile p l → c ∈ l
  | [], _, h => h
  | a :: t, c, h => by
    rw [lstripWhile] at h
    by_cases hp : p a = true
    · rw [if_pos hp] at h
      exact List.mem_cons_of_mem a (mem_lstripWhile p t c h)
    · rwa [if_neg hp] at h

theorem rstripWhile_eq_self (p : Char → Bool) :
    ∀ (l : List Char), (∀ c, l.getLast? = some c → p c = false) → rstripWhile p l = l
  | [], _ => rfl
  | a :: t, h => by
    have ht : rstripWhile p t = t := by
      cases t with
      | nil => rfl
      | cons b u =>
        exact rstripWhile_eq_self p (b :: u)
          (fun c hc => h c (by rw [List.getLast?_cons_cons]; exact hc))
    rw [rstripWhile, ht]
    cases t with
    | nil => rw [if_pos rfl, if_neg (by simp [h a (by simp)])]
    | cons b u => rw [if_neg (by simp)]

theorem getLast_rstripWhile (p : Char → Bool) :
    ∀ (l : List Char) (c : Char), (rstripWhile p l).getLast? = some c → p c = false
  | [], c, h => by simp [rstripWhile] at h
  | a :: t, c, h => by
    rw [rstripWhile] at h
    by_cases he : rstripWhile p t = []
    · rw [if_pos he] at h
      by_cases hp : p a = true
      · rw [if_pos hp] at h
        simp at h
      · rw [if_neg hp] at h
        simp at h hp
        rwa [← h]
    · rw [if_neg he] at h
      have h2 : (rstripWhile p t).getLast? = some c := by
        cases hrt : rstripWhile p t with
        | nil => exact absurd hrt he
        | cons b u =>
          rw [hrt] at h
          rwa [List.getLast?_cons_cons] at h
      exact getLast_rstripWhile p t c h2

theorem head_rstripWhile (p : Char → Bool) (l : List Char) (c : Char)
    (h : (rstripWhile p l).head? = some c) : l.head? = some c := by
  cases l with
  | nil => simp [rstripWhile] at h
  | cons a t =>
    rw [rstripWhile] at h
    by_cases he : rstripWhile p t = []
    · rw [if_pos he] at h
      by_cases hp : p a = true
      · rw [if_pos hp] at h
        simp at h
      · rw [if_neg hp] at h
        simpa using h
    · rw [if_neg he] at h
      simpa using h

theorem mem_rstripWhile (p : Char → Bool) :
    ∀ (l : List Char) (c : Char), c ∈ rstripWhile p l → c ∈ l
  | [], _, h => h
  | a :: t, c, h => by
    rw [rstripWhile] at h
    by_cases he : rstripWhile p t = []
    · rw [if_pos he] at h
      by_cases hp : p a = true
      · rw [if_pos hp] at h
        simp at h
      · rw [if_neg hp] at h
        simp at h
        simp [h]
    · rw [if_neg he] at h
      rcases List.mem_cons.mp h with h | h
      · simp [h]
      · exact List.mem_cons_of_mem a (mem_rstripWhile p t c h)

theorem length_rstripWhile_le (p : Char → Bool) :
    ∀ (l : List Char), (rstripWhile p l).length ≤ l.length
  | [] => Nat.le_refl 0
  | a :: t => by
    rw [rstripWhile]
    by_cases he : rstripWhile p t = []
    · rw [if_pos he]
      by_cases hp : p a = true
      · rw [if_pos hp]
        simp
      · rw [if_neg hp]
        simp
    · rw [if_neg he]
      have := length_rstripWhile_le p t
      simp only [List.length_cons]
      omega

theorem collapseAux_eq_self (p : Char → Bool) (r : Char) :
    ∀ (b : Bool) (l : List Char), (∀ c ∈ l, p c = false) → collapseAux p r b l = l
  | _, [], _ => rfl
  | b, a :: t, h => by
    rw [collapseAux, if_neg (by simp [h a (by simp)])]
    rw [collapseAux_eq_self p r false t (fun c hc => h c (List.mem_cons_of_mem a hc))]

theorem mem_collapseAux (p : Char → Bool) (r : Char) :
    ∀ (b : Bool) (l : List Char) (c : Char), c ∈ collapseAux p r b l →
      c = r ∨ (c ∈ l ∧ p c = false)
  | _, [], c, h => by simp [collapseAux] at h
  | b, a :: t, c, h => by
    rw [collapseAux] at h
    by_cases hp : p a = true
    · rw [if_pos hp] at h
      by_cases hb : b = true
      · rw [if_pos hb] at h
        rcases mem_collapseAux p r true t c h with h | ⟨h1, h2⟩
        · exact Or.inl h
        · exact Or.inr ⟨List.mem_cons_of_mem a h1, h2⟩
      · rw [if_neg hb] at h
        rcases List.mem_cons.mp h with h | h
        · exact Or.inl h
        · rcases mem_collapseAux p r true t c h with h | ⟨h1, h2⟩
          · exact Or.inl h
          · exact Or.inr ⟨List.mem_cons_of_mem a h1, h2⟩
    · rw [if_neg hp] at h
      rcases List.mem_cons.mp h with h | h
      · subst h
        simp at hp
        exact Or.inr ⟨by simp, hp⟩
      · rcases mem_collapseAux p r false t c h with h | ⟨h1, h2⟩
        · exact Or.inl h
        · exact Or.inr ⟨List.mem_cons_of_mem a h1, h2⟩



theorem hasHH_tail : ∀ (a : Char) (l : List Char), hasHH (a :: l) = false → hasHH l = false
  | _, [], _ => rfl
  | a, b :: t, h => by
    rw [hasHH] at h
    simp at h
    exact h.2

theorem hasHH_head (l : List Char) (h : hasHH ('-' :: l) = false) : l.head? ≠ some '-' := by
  cases l with
  | nil => simp
  | cons b t =>
    intro hb
    simp at hb
    subst hb
    rw [hasHH] at h
    simp [isHyphen] at h

theorem hasHH_cons_of_head (a : Char) (l : List Char) (hh : l.head? ≠ some '-')
    (h : hasHH l = false) : hasHH (a :: l) = false := by
  cases l with
  | nil => rfl
  | cons b t =>
    rw [hasHH]
    have hb : isHyphen b = false := by
      simp at hh
      simp [isHyphen, hh]
    simp [hb, h]

theorem hasHH_cons_of_not_hyphen (a : Char) (l : List Char) (ha : isHyphen a = false)
    (h : hasHH l = false) : hasHH (a :: l) = false := by
  cases l with
  | nil => rfl
  | cons b t =>
    rw [hasHH]
    simp [ha, h]

theorem collapseAux_hyphen_spec :
    ∀ (l : List Char),
      hasHH (collapseAux isHyphen '-' false l) = false ∧
      hasHH (collapseAux isHyphen '-' true l) = false ∧
      (collapseAux isHyphen '-' true l).head? ≠ some '-'
  | [] => ⟨rfl, rfl, by simp [collapseAux]⟩
  | a :: t => by
    obtain ⟨h1, h2, h3⟩ := collapseAux_hyphen_spec t
    by_cases hp : isHyphen a = true
    · refine ⟨?_, ?_, ?_⟩
      · rw [collapseAux, if_pos hp, if_neg (by simp)]
        exact hasHH_cons_of_head '-' _ h3 h2
      · rw [collapseAux, if_pos hp, if_pos rfl]
        exact h2
      · rw [collapseAux, if_pos hp, if_pos rfl]
        exact h3
    · have ha : isHyphen a = false := by simpa using hp
      refine ⟨?_, ?_, ?_⟩
      · rw [collapseAux, if_neg hp]
        exact hasHH_cons_of_not_hyphen a _ ha h1
      · rw [collapseAux, if_neg hp]
        exact hasHH_cons_of_not_hyphen a _ ha h1
      · rw [collapseAux, if_neg hp]
        intro hc
        simp at hc
        subst hc
        simp [isHyphen] at ha

theorem collapseAux_hyphen_eq_self :
    ∀ (l : List Char), hasHH l = false →
      collapseAux isHyphen '-' false l = l ∧
      (l.head? ≠ some '-' → collapseAux isHyphen '-' true l = l)
  | [], _ => ⟨rfl, fun _ => rfl⟩
  | a :: t, h => by
    obtain ⟨ih1, ih2⟩ := collapseAux_hyphen_eq_self t (hasHH_tail a t h)
    by_cases hp : isHyphen a = true
    · have ha : a = '-' := by simpa [isHyphen] using hp
      subst ha
      have hht : t.head? ≠ some '-' := hasHH_head t h
      constructor
      · rw [collapseAux, if_pos hp, if_neg (by simp), ih2 hht]
      · intro hc
        simp at hc
    · have ha : isHyphen a = false := by simpa using hp
      constructor
      · rw [collapseAux, if_neg hp, ih1]
      · intro _
        rw [collapseAux, if_neg hp, ih1]

theorem hasHH_lstripWhile (p : Char → Bool) :
    ∀ (l : List Char), hasHH l = false → hasHH (lstripWhile p l) = false
  | [], h => h
  | a :: t, h => by
    rw [lstripWhile]
    by_cases hp : p a = true
    · rw [if_pos hp]
      exact hasHH_lstripWhile p t (hasHH_tail a t h)
    · rwa [if_neg hp]

theorem hasHH_rstripWhile (p : Char → Bool) :
    ∀ (l : List Char), hasHH l = false → hasHH (rstripWhile p l) = false
  | [], h => h
  | a :: t, h => by
    have ih := hasHH_rstripWhile p t (hasHH_tail a t h)
    rw [rstripWhile]
    by_cases he : rstripWhile p t = []
    · rw [if_pos he]
      by_cases hp : p a = true
      · rw [if_pos hp]
        rfl
      · rw [if_neg hp]
        rfl
    · rw [if_neg he]
      by_cases hpa : isHyphen a = true
      · have ha : a = '-' := by simpa [isHyphen] using hpa
        subst ha
        refine hasHH_cons_of_head '-' _ ?_ ih
        intro hc
        exact (hasHH_head t h) (head_rstripWhile p t '-' hc)
      · exact hasHH_cons_of_not_hyphen a _ (by simpa using hpa) ih

theorem hasHH_take : ∀ (n : Nat) (l : List Char), hasHH l = false → hasHH (l.take n) = false
  | 0, _, _ => rfl
  | _ + 1, [], _ => rfl
  | n + 1, a :: t, h => by
    cases t with
    | nil =>
      cases n <;> rfl
    | cons b u =>
      cases n with
      | zero => rfl
      | succ m =>
        rw [List.take_succ_cons, List.take_succ_cons, hasHH]
        have h1 : (isHyphen a && isHyphen b) = false := by
          rw [hasHH] at h
          simp at h
          cases hx : isHyphen a with
          | false => simp
          | true => simp [h.1 hx]
        have h2 : hasHH ((b :: u).take (m + 1)) = false :=
          hasHH_take (m + 1) (b :: u) (hasHH_tail a (b :: u) h)
        rw [List.take_succ_cons] at h2
        simp [h1, h2]

theorem head?_of_take (n : Nat) (l : List Char) (c : Char) (h : (l.take n).head? = some c) :
    l.head? = some c := by
  cases n with
  | zero => simp at h
  | succ m =>
    cases l with
    | nil => simp at h
    | cons a t => simpa using h



theorem canon_untitled : Canon ("Untitled".toList) := by
  refine ⟨by decide, rfl, by decide, by decide⟩

theorem slugCore_props (l : List Char) :
    (∀ c ∈ slugCore l, goodChar c = true) ∧ hasHH (slugCore l) = false ∧
    (∀ c, (slugCore l).head? = some c → isHyphen c = false) ∧
    (∀ c, (slugCore l).getLast? = some c → isHyphen c = false) := by
  have hg2 : ∀ c ∈ (collapseClass inSepClass '-' (stripBoth isSpaceChar l)).filter keepChar,
      goodChar c = true := by
    intro c hc
    obtain ⟨hmem, hkeep⟩ := List.mem_filter.mp hc
    rcases mem_collapseAux inSepClass '-' false _ c hmem with h | ⟨_, hsep⟩
    · subst h
      decide
    · exact keep_notsep_good c hkeep hsep
  have hg3 : ∀ c ∈ collapseClass isHyphen '-'
      ((collapseClass inSepClass '-' (stripBoth isSpaceChar l)).filter keepChar),
      goodChar c = true := by
    intro c hc
    rcases mem_collapseAux isHyphen '-' false _ c hc with h | ⟨hmem, _⟩
    · subst h
      decide
    · exact hg2 c hmem
  have hh3 := (collapseAux_hyphen_spec
    ((collapseClass inSepClass '-' (stripBoth isSpaceChar l)).filter keepChar)).1
  unfold slugCore stripBoth
  refine ⟨?_, ?_, ?_, ?_⟩
  · intro c hc
    exact hg3 c (mem_lstripWhile isHyphen _ c (mem_rstripWhile isHyphen _ c hc))
  · exact hasHH_rstripWhile isHyphen _ (hasHH_lstripWhile isHyphen _ hh3)
  · intro c hc
    exact head_lstripWhile isHyphen _ c (head_rstripWhile isHyphen _ c hc)
  · intro c hc
    exact getLast_rstripWhile isHyphen _ c hc

theorem slugTrunc_props (max_length : Nat) (s : List Char)
    (hg : ∀ c ∈ s, goodChar c = true) (hh : hasHH s = false)
    (hhd : ∀ c, s.head? = some c → isHyphen c = false)
    (hlt : ∀ c, s.getLast? = some c → isHyphen c = false) :
    (∀ c ∈ slugTrunc max_length s, goodChar c = true) ∧
    hasHH (slugTrunc max_length s) = false ∧
    (∀ c, (slugTrunc max_length s).head? = some c → isHyphen c = false) ∧
    (∀ c, (slugTrunc max_length s).getLast? = some c → isHyphen c = false) ∧
    (slugTrunc max_length s).length ≤ max_length := by
  unfold slugTrunc
  by_cases htr : max_length < s.length
  · rw [if_pos htr]
    refine ⟨?_, ?_, ?_, ?_, ?_⟩
    · intro c hc
      exact hg c (List.take_subset max_length s (mem_rstripWhile isHyphen _ c hc))
    · exact hasHH_rstripWhile isHyphen _ (hasHH_take max_length s hh)
    · intro c hc
      exact hhd c (head?_of_take max_length s c (head_rstripWhile isHyphen _ c hc))
    · intro c hc
      exact getLast_rstripWhile isHyphen _ c hc
    · calc (rstripWhile isHyphen (s.take max_length)).length
          ≤ (s.take max_length).length := length_rstripWhile_le isHyphen _
        _ ≤ max_length := by
            rw [List.length_take]
            omega
  · rw [if_neg htr]
    exact ⟨hg, hh, hhd, hlt, by omega⟩

theorem slugChars_props (max_length : Nat) (l : List Char) :
    Canon (slugChars max_length l) ∧ slugChars max_length l ≠ [] ∧
      (8 ≤ max_length → (slugChars max_length l).length ≤ max_length) := by
  unfold slugChars
  by_cases hl : l = []
  · rw [if_pos hl]
    exact ⟨canon_untitled, by decide, fun h8 => h8⟩
  · rw [if_neg hl]
    obtain ⟨hg, hh, hhd, hlt⟩ := slugCore_props l
    obtain ⟨hg5, hh5, hhd5, hlt5, hlen5⟩ := slugTrunc_props max_length (slugCore l) hg hh hhd hlt
    by_cases h5 : slugTrunc max_length (slugCore l) = []
    · rw [if_pos h5]
      exact ⟨canon_untitled, by decide, fun h8 => h8⟩
    · rw [if_neg h5]
      refine ⟨⟨hg5, hh5, ?_, ?_⟩, h5, fun _ => hlen5⟩
      · intro hc
        have := hhd5 '-' hc
        simp [isHyphen] at this
      · intro hc
        have := hlt5 '-' hc
        simp [isHyphen] at this

theorem slugChars_eq_self (max_length : Nat) (l : List Char) (hC : Canon l) (hne : l ≠ [])
    (hlen : l.length ≤ max_length) : slugChars max_length l = l := by
  obtain ⟨hg, hh, hhd, hlt⟩ := hC
  have hhd2 : ∀ c, l.head? = some c → isHyphen c = false := by
    intro c hc
    cases hx : isHyphen c with
    | false => rfl
    | true =>
      have : c = '-' := by simpa [isHyphen] using hx
      subst this
      exact absurd hc hhd
  have hlt2 : ∀ c, l.getLast? = some c → isHyphen c = false := by
    intro c hc
    cases hx : isHyphen c with
    | false => rfl
    | true =>
      have : c = '-' := by simpa [isHyphen] using hx
      subst this
      exact absurd hc hlt
  have h0 : stripBoth isSpaceChar l = l := by
    unfold stripBoth
    rw [lstripWhile_eq_self isSpaceChar l
      (fun c hc => good_not_space c (hg c (head?_mem_of l c hc)))]
    rw [rstripWhile_eq_self isSpaceChar l
      (fun c hc => good_not_space c (hg c (getLast?_mem_of l c hc)))]
  have h1 : collapseClass inSepClass '-' l = l :=
    collapseAux_eq_self inSepClass '-' false l (fun c hc => good_not_sep c (hg c hc))
  have h2 : l.filter keepChar = l :=
    List.filter_eq_self.mpr (fun c hc => good_keep c (hg c hc))
  have h3 : collapseClass isHyphen '-' l = l := (collapseAux_hyphen_eq_self l hh).1
  have h4 : stripBoth isHyphen l = l := by
    unfold stripBoth
    rw [lstripWhile_eq_self isHyphen l hhd2]
    rw [rstripWhile_eq_self isHyphen l hlt2]
  have hcore : slugCore l = l := by
    unfold slugCore
    rw [h0]
    show stripBoth isHyphen (collapseClass isHyphen '-'
      ((collapseClass inSepClass '-' l).filter keepChar)) = l
    rw [h1, h2, h3, h4]
  have htr : slugTrunc max_length l = l := by
    unfold slugTrunc
    rw [if_neg (by omega)]
  unfold slugChars
  rw [if_neg hne, hcore, htr, if_neg hne]

/-- Claim C9 (amended).  slugify is idempotent for every max_length of at
least 8, the length of the fallback slug Untitled: slugify of a slug it
produced, at the same max_length, returns it unchanged. -/
theorem claim_C9_slugify_idempotent (text : String) (max_length : Nat)
    (h8 : 8 ≤ max_length) :
    slugify (slugify text max_length) max_length = slugify text max_length := by
  obtain ⟨hC, hne, hlen⟩ := slugChars_props max_length text.toList
  have h := slugChars_eq_self max_length (slugChars max_length text.toList) hC hne (hlen h8)
  show (⟨slugChars max_length (slugChars max_length text.toList)⟩ : String) =
    ⟨slugChars max_length text.toList⟩
  rw [h]

/-- Witness for claim C9: idempotence at the max_length 80 the downloader
uses, on a title exercising every pass of the pipeline. -/
theorem claim_C9_slugify_idempotent_witness :
    8 ≤ 80 ∧
    slugify (slugify "  Weekly sync / Q3 notes_v2 | (draft)!!  " 80) 80 =
      slugify "  Weekly sync / Q3 notes_v2 | (draft)!!  " 80 :=
  ⟨by omega, claim_C9_slugify_idempotent "  Weekly sync / Q3 notes_v2 | (draft)!!  " 80 (by omega)⟩

/-- Counterexample to claim C9 as stated: at max_length 3 the empty string
slugs to the fallback Untitled, which itself slugs to its truncation Unt, so
slugify applied twice differs from slugify applied once. -/
theorem claim_C9_counterexample :
    slugify "" 3 = "Untitled" ∧ slugify (slugify "" 3) 3 = "Unt" ∧
    ("Unt" : String) ≠ "Untitled" :=
  ⟨by decide, by decide, by decide⟩

end OtterDL
